import Mathlib

set_option maxRecDepth 4000

/-!
Shallow embedding of the backtest engine of the tw50-plus2-8020-pwa
repository (src/services/backtestService.ts and src/utils/calculations.ts).

JavaScript numbers are modelled as exact rationals (ℚ); `Math.floor` is
`Int.floor`, `Math.round` is Mathlib's `round` (both round half up, as
JavaScript does).  Division by zero, which yields NaN/Infinity in
JavaScript, yields 0 in ℚ; every place where that matters is noted at its
definition.  A calendar date string `YYYY-MM-DD` is modelled as a `Date`
structure ordered lexicographically (string comparison of zero-padded
dates agrees with that order), and `Date.getMonth()` is the `month`
projection, which ignores the year just as `getMonth` does.
-/

/-- A calendar date as the engine sees it: `new Date(d).getMonth()` is the
`month` field, string comparison of `YYYY-MM-DD` dates is lexicographic
comparison of (year, month, day). -/
structure Date where
  year : ℕ
  month : ℕ
  day : ℕ
deriving DecidableEq

instance : Inhabited Date := ⟨⟨0, 0, 0⟩⟩

/-- `a <= b` on `YYYY-MM-DD` strings (lexicographic). -/
def Date.le (a b : Date) : Bool :=
  decide (a.year < b.year ∨ (a.year = b.year ∧
    (a.month < b.month ∨ (a.month = b.month ∧ a.day ≤ b.day))))

/-- The categorical signal of a `DailyResult`. -/
inductive Signal where
  | long
  | hedge
  | none
deriving DecidableEq

instance : Inhabited Signal := ⟨Signal.none⟩

/-- The `type` field of a trade log entry. -/
inductive TradeType where
  | buy
  | sell
  | hedge_open
  | hedge_close
  | rebalance
deriving DecidableEq

/-- One entry of `tradeLogs` (the human-readable `description` string is
not modelled; every numeric field is). -/
structure TradeLog where
  date : Date
  type : TradeType
  shares : Option ℤ
  contracts : Option ℤ
  price : ℚ
  amount : ℚ
  pnl : Option ℚ
  etfSharesAfter : ℤ
  hedgeCapitalAfter : ℚ
  totalEquityAfter : ℚ
deriving DecidableEq

/-- One entry of `dailyResults`. -/
structure DailyResult where
  date : Date
  indexPrice : ℚ
  etfPrice : ℚ
  maValue : ℚ
  etfShares : ℤ
  etfValue : ℚ
  hedgeCapital : ℚ
  hedgeContracts : ℤ
  hedgePnL : ℚ
  totalEquity : ℚ
  signal : Signal
deriving DecidableEq

instance : Inhabited DailyResult :=
  ⟨⟨default, 0, 0, 0, 0, 0, 0, 0, 0, 0, default⟩⟩

/-- The `summary` part of a `BacktestResult`. -/
structure Summary where
  startDate : Date
  endDate : Date
  initialCapital : ℚ
  finalEquity : ℚ
  totalReturn : ℚ
  totalReturnPercent : ℚ
  maxDrawdown : ℚ
  totalHedgePnL : ℚ
  hedgeTrades : ℕ
  rebalanceTrades : ℕ
deriving DecidableEq

structure BacktestResult where
  dailyResults : List DailyResult
  tradeLogs : List TradeLog
  summary : Summary
deriving DecidableEq

structure BacktestParams where
  startDate : Date
  endDate : Date
  initialCapital : ℚ
  etfRatio : ℚ
  maPeriod : ℕ
  marginPerContract : ℚ
  safetyMultiplier : ℚ
  enableRebalance : Bool

structure HistoricalData where
  date : Date
  indexPrice : ℚ
  etfPrice : ℚ
deriving DecidableEq

instance : Inhabited HistoricalData := ⟨⟨default, 0, 0⟩⟩

/-- JavaScript `Math.floor` on an exact rational. -/
def jsFloor (x : ℚ) : ℤ := Rat.floor x

/-- JavaScript `Math.round` (round half toward +∞) on an exact rational. -/
def jsRound (x : ℚ) : ℤ := jsFloor (x + 1/2)

/-- `Math.round(x * 100) / 100`: rounding to 2 decimal places. -/
def round2 (x : ℚ) : ℚ := ((jsRound (x * 100) : ℤ) : ℚ) / 100

/-- `calculateMA` of backtestService.ts: for each index `i` of `prices`,
the sentinel 0 while `i < period - 1`, else the mean of
`prices.slice(i - period + 1, i + 1)` rounded to 2 decimals.  (In the
`else` branch `i + 1 ≥ period`, so the ℕ-subtraction `i + 1 - period`
is the JavaScript slice start `i - period + 1`.) -/
def calculateMA (prices : List ℚ) (period : ℕ) : List ℚ :=
  (List.range prices.length).map fun i =>
    if i < period - 1 then 0
    else round2 ((((prices.drop (i + 1 - period)).take period).sum) / (period : ℚ))

/-- `LEVERAGE` of calculations.ts. -/
def LEVERAGE : ℚ := 2

/-- `SHARES_PER_UNIT` of calculations.ts. -/
def SHARES_PER_UNIT : ℚ := 1000

/-- One row produced by `generatePnLScenarios`. -/
structure Scenario where
  indexPrice : ℚ
  delta : ℚ
  etfPnL : ℚ
  totalPnL : ℚ
deriving DecidableEq

/-- Number of iterations of `for (let delta = -range; delta <= range;
delta += step)`: the deltas are `-range + k·step` for `k` with
`-range + k·step ≤ range`.  For `step ≤ 0` the JavaScript loop never
terminates (or, when additionally `-range > range`, runs zero times);
the model performs zero iterations there, which no claim exercises. -/
def scenarioCount (range step : ℚ) : ℕ :=
  if 0 < step ∧ -range ≤ range then (jsFloor ((range - (-range)) / step)).toNat + 1 else 0

/-- `generatePnLScenarios` of calculations.ts.  Note: the division
`delta / baseIndexPrice` is NOT guarded; with `baseIndexPrice = 0`
JavaScript propagates NaN/Infinity into every row (ℚ gives 0), and the
function still returns a full table rather than raising any error. -/
def generatePnLScenarios (baseIndexPrice etfPrice etfShares etfCost : ℚ)
    (range step : ℚ) : List Scenario :=
  (List.range (scenarioCount range step)).map fun (k : ℕ) =>
    let delta := -range + (k : ℚ) * step
    let newIndexPrice := baseIndexPrice + delta
    let indexChange := delta / baseIndexPrice
    let leveragedChange := indexChange * LEVERAGE
    let newEtfPrice := etfPrice * (1 + leveragedChange)
    let newEtfValue := etfShares * SHARES_PER_UNIT * newEtfPrice
    let costValue := etfShares * SHARES_PER_UNIT * etfCost
    let etfPnL := newEtfValue - costValue
    { indexPrice := newIndexPrice, delta := delta, etfPnL := etfPnL, totalPnL := etfPnL }

/-- The mutable per-run state of `runBacktest`'s day loop, together with the
two output accumulators (`dailyResults`, `tradeLogs`). -/
structure LoopState where
  etfShares : ℤ
  hedgeCapital : ℚ
  hedgeContracts : ℤ
  hedgeEntryPrice : ℚ
  totalHedgePnL : ℚ
  hedgeTrades : ℕ
  rebalanceTrades : ℕ
  lastMonth : ℕ
  maxEquity : ℚ
  maxDrawdown : ℚ
  dailyResults : List DailyResult
  tradeLogs : List TradeLog

/-- Lines 148–198 of backtestService.ts: the monthly-rebalance block of one
loop iteration, followed by the unconditional `lastMonth = currentMonth`
assignment.  `etfValue` is always the current `etfShares * 1000 * etfPrice`,
so it is recomputed rather than threaded. -/
def rebalancePhase (params : BacktestParams) (i : ℕ) (date : Date)
    (etfPrice : ℚ) (st : LoopState) : LoopState :=
  let etfValue : ℚ := (st.etfShares : ℚ) * 1000 * etfPrice
  let st' :=
    if params.enableRebalance = true ∧ 0 < i ∧ date.month ≠ st.lastMonth ∧
        st.hedgeContracts = 0 then
      let totalEquity := etfValue + st.hedgeCapital
      let targetEtfValue := totalEquity * params.etfRatio
      let diff := targetEtfValue - etfValue
      if |diff| > totalEquity * (1/100) then
        let sharesToTrade : ℤ := jsRound (diff / (etfPrice * 1000))
        if sharesToTrade ≠ 0 then
          let tradeAmount : ℚ := (|sharesToTrade| : ℚ) * 1000 * etfPrice
          if 0 < sharesToTrade then
            { st with
              etfShares := st.etfShares + sharesToTrade
              hedgeCapital := st.hedgeCapital - tradeAmount
              rebalanceTrades := st.rebalanceTrades + 1
              tradeLogs := st.tradeLogs ++ [{
                date := date, type := TradeType.rebalance,
                shares := some sharesToTrade, contracts := Option.none,
                price := etfPrice, amount := tradeAmount, pnl := Option.none,
                etfSharesAfter := st.etfShares + sharesToTrade,
                hedgeCapitalAfter := st.hedgeCapital - tradeAmount,
                totalEquityAfter := totalEquity }] }
          else
            { st with
              etfShares := st.etfShares + sharesToTrade
              hedgeCapital := st.hedgeCapital + tradeAmount
              rebalanceTrades := st.rebalanceTrades + 1
              tradeLogs := st.tradeLogs ++ [{
                date := date, type := TradeType.rebalance,
                shares := some sharesToTrade, contracts := Option.none,
                price := etfPrice, amount := tradeAmount, pnl := Option.none,
                etfSharesAfter := st.etfShares + sharesToTrade,
                hedgeCapitalAfter := st.hedgeCapital + tradeAmount,
                totalEquityAfter := totalEquity }] }
        else st
      else st
    else st
  { st' with lastMonth := date.month }

/-- What the signal block of one loop iteration returns: the updated state,
the day's `signal` and the day's realized `dailyHedgePnL`. -/
structure SigOut where
  st : LoopState
  sig : Signal
  pnl : ℚ

/-- Lines 200–256 of backtestService.ts: signal determination and the
hedge open/close transitions.  `etfValue` is the post-rebalance ETF value,
used only in the trade-log equity snapshots. -/
def signalPhase (params : BacktestParams) (date : Date)
    (indexPrice maValue etfValue : ℚ) (st : LoopState) : SigOut :=
  let isBelowMA := 0 < maValue ∧ indexPrice < maValue
  if 0 < maValue then
    if isBelowMA ∧ st.hedgeContracts = 0 then
      let effectiveMargin := params.marginPerContract * params.safetyMultiplier
      let canShort : ℤ := jsFloor (st.hedgeCapital / effectiveMargin)
      if 0 < canShort then
        { st := { st with
            hedgeContracts := canShort
            hedgeEntryPrice := indexPrice
            hedgeTrades := st.hedgeTrades + 1
            tradeLogs := st.tradeLogs ++ [{
              date := date, type := TradeType.hedge_open,
              shares := Option.none, contracts := some canShort,
              price := indexPrice,
              amount := (canShort : ℚ) * params.marginPerContract,
              pnl := Option.none,
              etfSharesAfter := st.etfShares,
              hedgeCapitalAfter := st.hedgeCapital,
              totalEquityAfter := etfValue + st.hedgeCapital }] },
          sig := Signal.hedge, pnl := 0 }
      else { st := st, sig := Signal.none, pnl := 0 }
    else if ¬isBelowMA ∧ 0 < st.hedgeContracts then
      let pnlPoints := st.hedgeEntryPrice - indexPrice
      let dailyHedgePnL := (st.hedgeContracts : ℚ) * pnlPoints * 50
      { st := { st with
          hedgeCapital := st.hedgeCapital + dailyHedgePnL
          totalHedgePnL := st.totalHedgePnL + dailyHedgePnL
          hedgeContracts := 0
          hedgeEntryPrice := 0
          tradeLogs := st.tradeLogs ++ [{
            date := date, type := TradeType.hedge_close,
            shares := Option.none, contracts := some st.hedgeContracts,
            price := indexPrice, amount := 0,
            pnl := some dailyHedgePnL,
            etfSharesAfter := st.etfShares,
            hedgeCapitalAfter := st.hedgeCapital + dailyHedgePnL,
            totalEquityAfter := etfValue + (st.hedgeCapital + dailyHedgePnL) }] },
        sig := Signal.long, pnl := dailyHedgePnL }
    else if 0 < st.hedgeContracts then { st := st, sig := Signal.hedge, pnl := 0 }
    else { st := st, sig := Signal.long, pnl := 0 }
  else { st := st, sig := Signal.none, pnl := 0 }

/-- One iteration of the day loop of `runBacktest` (lines 140–290 of
backtestService.ts): rebalance block, signal block, mark-to-market,
drawdown tracking and the day's `DailyResult`. -/
def stepDay (params : BacktestParams) (i : ℕ) (day : HistoricalData)
    (maValue : ℚ) (st : LoopState) : LoopState :=
  let st1 := rebalancePhase params i day.date day.etfPrice st
  let etfValue : ℚ := (st1.etfShares : ℚ) * 1000 * day.etfPrice
  let out := signalPhase params day.date day.indexPrice maValue etfValue st1
  let st2 := out.st
  let unrealizedHedgePnL : ℚ :=
    if 0 < st2.hedgeContracts then
      (st2.hedgeContracts : ℚ) * (st2.hedgeEntryPrice - day.indexPrice) * 50
    else 0
  let totalEquity := etfValue + st2.hedgeCapital + unrealizedHedgePnL
  let maxEquity' := if totalEquity > st2.maxEquity then totalEquity else st2.maxEquity
  let drawdown := (maxEquity' - totalEquity) / maxEquity'
  let maxDrawdown' := if drawdown > st2.maxDrawdown then drawdown else st2.maxDrawdown
  { st2 with
    maxEquity := maxEquity'
    maxDrawdown := maxDrawdown'
    dailyResults := st2.dailyResults ++ [{
      date := day.date, indexPrice := day.indexPrice, etfPrice := day.etfPrice,
      maValue := maValue, etfShares := st2.etfShares, etfValue := etfValue,
      hedgeCapital := st2.hedgeCapital, hedgeContracts := st2.hedgeContracts,
      hedgePnL := out.pnl, totalEquity := totalEquity, signal := out.sig }] }

/-- The day loop itself: `days` and `mas` are the unprocessed suffixes of
the filtered series and its MA series, `i` the index of the next day. -/
def runDays (params : BacktestParams) : List HistoricalData → List ℚ → ℕ →
    LoopState → LoopState
  | d :: ds, m :: ms, i, st => runDays params ds ms (i + 1) (stepDay params i d m st)
  | _, _, _, st => st

/-- The date-range filter of line 94: `d.date >= startDate && d.date <= endDate`. -/
def inRange (params : BacktestParams) (d : HistoricalData) : Bool :=
  Date.le params.startDate d.date && Date.le d.date params.endDate

/-- The initial trade log entry (lines 128–138): the day-0 purchase.
Its `totalEquityAfter` is written as `params.initialCapital` exactly. -/
def initLog (params : BacktestParams) (first : HistoricalData) : TradeLog :=
  { date := first.date, type := TradeType.buy,
    shares := some (jsFloor (params.initialCapital * params.etfRatio /
      (first.etfPrice * 1000))),
    contracts := Option.none,
    price := first.etfPrice,
    amount := ((jsFloor (params.initialCapital * params.etfRatio /
      (first.etfPrice * 1000)) : ℤ) : ℚ) * 1000 * first.etfPrice,
    pnl := Option.none,
    etfSharesAfter := jsFloor (params.initialCapital * params.etfRatio /
      (first.etfPrice * 1000)),
    hedgeCapitalAfter := params.initialCapital * (1 - params.etfRatio),
    totalEquityAfter := params.initialCapital }

/-- The state after initialization (lines 106–138 of backtestService.ts):
`initialShares = floor(capital·ratio / (firstEtfPrice·1000))`, the reserve is
`capital·(1-ratio)`, and the one `buy` entry is logged. -/
def initState (params : BacktestParams) (first : HistoricalData) : LoopState :=
  { etfShares := jsFloor (params.initialCapital * params.etfRatio /
      (first.etfPrice * 1000))
    hedgeCapital := params.initialCapital * (1 - params.etfRatio)
    hedgeContracts := 0
    hedgeEntryPrice := 0
    totalHedgePnL := 0
    hedgeTrades := 0
    rebalanceTrades := 0
    lastMonth := first.date.month
    maxEquity := params.initialCapital
    maxDrawdown := 0
    dailyResults := []
    tradeLogs := [initLog params first] }

/-- The loop state after the whole day loop has run over the filtered
series `fd`. -/
def finalState (params : BacktestParams) (fd : List HistoricalData) : LoopState :=
  runDays params fd (calculateMA (fd.map (·.indexPrice)) params.maPeriod) 0
    (initState params (fd.headD default))

/-- The live loop state after the first `k` days of the filtered series have
been processed: the same fold as `finalState`, stopped after `k` steps.  In
particular `(stateAt params fd (j+1)).hedgeEntryPrice` is the engine's
`hedgeEntryPrice` variable as it stands on day `j` — the entry price of the
currently open short hedge, the exact value the source's unrealized-P&L
computation (line 262) reads on that day. -/
def stateAt (params : BacktestParams) (fd : List HistoricalData) (k : ℕ) : LoopState :=
  runDays params (fd.take k)
    ((calculateMA (fd.map (·.indexPrice)) params.maPeriod).take k) 0
    (initState params (fd.headD default))

/-- The `BacktestResult` assembled on the success path of `runBacktest`
(lines 292–312 of backtestService.ts): the two accumulated lists and the
summary derived from the last `DailyResult` and the running counters. -/
def okResult (params : BacktestParams) (fd : List HistoricalData) : BacktestResult :=
  let fin := finalState params fd
  let finalEquity := ((fin.dailyResults.getLast?).getD default).totalEquity
  let totalReturn := finalEquity - params.initialCapital
  { dailyResults := fin.dailyResults
    tradeLogs := fin.tradeLogs
    summary := {
      startDate := params.startDate
      endDate := params.endDate
      initialCapital := params.initialCapital
      finalEquity := finalEquity
      totalReturn := totalReturn
      totalReturnPercent := totalReturn / params.initialCapital * 100
      maxDrawdown := fin.maxDrawdown * 100
      totalHedgePnL := fin.totalHedgePnL
      hedgeTrades := fin.hedgeTrades
      rebalanceTrades := fin.rebalanceTrades } }

/-- `runBacktest` of backtestService.ts.  The `throw` on an empty filtered
range is modelled as `Except.error`; otherwise the initial purchase is
recorded and the day loop is folded over the filtered series.  The
drawdown division `(maxEquity - totalEquity) / maxEquity` inside the loop
and the `totalReturn / initialCapital` division are unguarded, exactly
as in the source. -/
def runBacktest (data : List HistoricalData) (params : BacktestParams) :
    Except String BacktestResult :=
  let filteredData := data.filter (inRange params)
  if filteredData.isEmpty then Except.error "No data in selected date range"
  else Except.ok (okResult params filteredData)

/-- The last emitted `DailyResult` mirrors the live state. -/
def lastMatch (st : LoopState) : Prop :=
  ∀ last ∈ st.dailyResults.getLast?,
    last.etfShares = st.etfShares ∧ last.hedgeCapital = st.hedgeCapital ∧
    last.hedgeContracts = st.hedgeContracts ∧ last.date.month = st.lastMonth

/-- Relation between two consecutive emitted `DailyResult`s. -/
def StepRel (a b : DailyResult) : Prop :=
  (b.hedgeContracts = a.hedgeContracts ∨
    (a.hedgeContracts = 0 ∧ 0 < b.hedgeContracts) ∨
    (0 < a.hedgeContracts ∧ b.hedgeContracts = 0)) ∧
  (b.etfShares = a.etfShares → b.hedgeCapital = a.hedgeCapital + b.hedgePnL) ∧
  (b.date.month = a.date.month →
    b.etfShares = a.etfShares ∧ b.hedgeCapital = a.hedgeCapital + b.hedgePnL)

/-- Every rebalance log entry is dated on a day whose month differs from the
previous day's month. -/
def RebProv (st : LoopState) : Prop :=
  ∀ e ∈ st.tradeLogs, e.type = TradeType.rebalance →
    ∃ j a b, st.dailyResults[j]? = some a ∧ st.dailyResults[j + 1]? = some b ∧
      a.date.month ≠ b.date.month ∧ e.date = b.date


theorem jsFloor_eq (x : ℚ) : jsFloor x = ⌊x⌋ := by
  rw [jsFloor, Rat.floor_def', Rat.floor_def]

theorem jsRound_eq (x : ℚ) : jsRound x = round x := by
  rw [jsRound, jsFloor_eq, round_eq]

/-! ## Step and fold lemmas -/

theorem rebalancePhase_split (params : BacktestParams) (i : ℕ) (date : Date)
    (etfPrice : ℚ) (st : LoopState) :
    rebalancePhase params i date etfPrice st = { st with lastMonth := date.month } ∨
    (params.enableRebalance = true ∧ 0 < i ∧ date.month ≠ st.lastMonth ∧
      st.hedgeContracts = 0 ∧
      ∃ s : ℤ, s ≠ 0 ∧ ∃ hc' : ℚ,
        rebalancePhase params i date etfPrice st = { st with
          etfShares := st.etfShares + s
          hedgeCapital := hc'
          rebalanceTrades := st.rebalanceTrades + 1
          lastMonth := date.month
          tradeLogs := st.tradeLogs ++ [{
            date := date, type := TradeType.rebalance,
            shares := some s, contracts := Option.none,
            price := etfPrice, amount := (|s| : ℚ) * 1000 * etfPrice,
            pnl := Option.none,
            etfSharesAfter := st.etfShares + s,
            hedgeCapitalAfter := hc',
            totalEquityAfter := (st.etfShares : ℚ) * 1000 * etfPrice + st.hedgeCapital }] }) := by
  simp only [rebalancePhase]
  split_ifs with h1 h2 h3 h4
  · exact Or.inr ⟨h1.1, h1.2.1, h1.2.2.1, h1.2.2.2, _, h3, _, rfl⟩
  · exact Or.inr ⟨h1.1, h1.2.1, h1.2.2.1, h1.2.2.2, _, h3, _, rfl⟩
  · exact Or.inl rfl
  · exact Or.inl rfl
  · exact Or.inl rfl

theorem signalPhase_split (params : BacktestParams) (date : Date)
    (indexPrice maValue etfValue : ℚ) (st : LoopState) :
    (signalPhase params date indexPrice maValue etfValue st = ⟨st, Signal.none, 0⟩ ∧
      ¬ 0 < maValue) ∨
    (signalPhase params date indexPrice maValue etfValue st = ⟨st, Signal.none, 0⟩ ∧
      0 < maValue ∧ st.hedgeContracts = 0) ∨
    (signalPhase params date indexPrice maValue etfValue st = ⟨st, Signal.hedge, 0⟩ ∧
      0 < maValue ∧ 0 < st.hedgeContracts) ∨
    (signalPhase params date indexPrice maValue etfValue st = ⟨st, Signal.long, 0⟩ ∧
      0 < maValue ∧ ¬ 0 < st.hedgeContracts) ∨
    (0 < maValue ∧ st.hedgeContracts = 0 ∧
      ∃ c : ℤ, 0 < c ∧
        signalPhase params date indexPrice maValue etfValue st =
          ⟨{ st with
              hedgeContracts := c
              hedgeEntryPrice := indexPrice
              hedgeTrades := st.hedgeTrades + 1
              tradeLogs := st.tradeLogs ++ [{
                date := date, type := TradeType.hedge_open,
                shares := Option.none, contracts := some c,
                price := indexPrice,
                amount := (c : ℚ) * params.marginPerContract,
                pnl := Option.none,
                etfSharesAfter := st.etfShares,
                hedgeCapitalAfter := st.hedgeCapital,
                totalEquityAfter := etfValue + st.hedgeCapital }] },
            Signal.hedge, 0⟩) ∨
    (0 < maValue ∧ 0 < st.hedgeContracts ∧
      signalPhase params date indexPrice maValue etfValue st =
        ⟨{ st with
            hedgeCapital :=
              st.hedgeCapital + (st.hedgeContracts : ℚ) * (st.hedgeEntryPrice - indexPrice) * 50
            totalHedgePnL :=
              st.totalHedgePnL + (st.hedgeContracts : ℚ) * (st.hedgeEntryPrice - indexPrice) * 50
            hedgeContracts := 0
            hedgeEntryPrice := 0
            tradeLogs := st.tradeLogs ++ [{
              date := date, type := TradeType.hedge_close,
              shares := Option.none, contracts := some st.hedgeContracts,
              price := indexPrice, amount := 0,
              pnl := some ((st.hedgeContracts : ℚ) * (st.hedgeEntryPrice - indexPrice) * 50),
              etfSharesAfter := st.etfShares,
              hedgeCapitalAfter :=
                st.hedgeCapital + (st.hedgeContracts : ℚ) * (st.hedgeEntryPrice - indexPrice) * 50,
              totalEquityAfter :=
                etfValue + (st.hedgeCapital +
                  (st.hedgeContracts : ℚ) * (st.hedgeEntryPrice - indexPrice) * 50) }] },
          Signal.long,
          (st.hedgeContracts : ℚ) * (st.hedgeEntryPrice - indexPrice) * 50⟩) := by
  simp only [signalPhase]
  split_ifs with h1 h2 h3 h4 h5
  · -- open branch, canShort > 0
    exact Or.inr (Or.inr (Or.inr (Or.inr (Or.inl ⟨h1, h2.2, _, h3, rfl⟩))))
  · -- open attempt, canShort = 0
    exact Or.inr (Or.inl ⟨rfl, h1, h2.2⟩)
  · -- close branch
    exact Or.inr (Or.inr (Or.inr (Or.inr (Or.inr ⟨h1, h4.2, rfl⟩))))
  · -- hold branch
    exact Or.inr (Or.inr (Or.inl ⟨rfl, h1, h5⟩))
  · -- long branch
    exact Or.inr (Or.inr (Or.inr (Or.inl ⟨rfl, h1, h5⟩)))
  · -- maValue ≤ 0
    exact Or.inl ⟨rfl, h1⟩

theorem signalPhase_cases (params : BacktestParams) (date : Date)
    (indexPrice maValue etfValue : ℚ) (st : LoopState) :
    (∃ sig, signalPhase params date indexPrice maValue etfValue st = ⟨st, sig, 0⟩ ∧
      (¬ 0 < maValue → sig = Signal.none)) ∨
    (0 < maValue ∧ st.hedgeContracts = 0 ∧
      ∃ c : ℤ, 0 < c ∧
        signalPhase params date indexPrice maValue etfValue st =
          ⟨{ st with
              hedgeContracts := c
              hedgeEntryPrice := indexPrice
              hedgeTrades := st.hedgeTrades + 1
              tradeLogs := st.tradeLogs ++ [{
                date := date, type := TradeType.hedge_open,
                shares := Option.none, contracts := some c,
                price := indexPrice,
                amount := (c : ℚ) * params.marginPerContract,
                pnl := Option.none,
                etfSharesAfter := st.etfShares,
                hedgeCapitalAfter := st.hedgeCapital,
                totalEquityAfter := etfValue + st.hedgeCapital }] },
            Signal.hedge, 0⟩) ∨
    (0 < maValue ∧ 0 < st.hedgeContracts ∧
      signalPhase params date indexPrice maValue etfValue st =
        ⟨{ st with
            hedgeCapital :=
              st.hedgeCapital + (st.hedgeContracts : ℚ) * (st.hedgeEntryPrice - indexPrice) * 50
            totalHedgePnL :=
              st.totalHedgePnL + (st.hedgeContracts : ℚ) * (st.hedgeEntryPrice - indexPrice) * 50
            hedgeContracts := 0
            hedgeEntryPrice := 0
            tradeLogs := st.tradeLogs ++ [{
              date := date, type := TradeType.hedge_close,
              shares := Option.none, contracts := some st.hedgeContracts,
              price := indexPrice, amount := 0,
              pnl := some ((st.hedgeContracts : ℚ) * (st.hedgeEntryPrice - indexPrice) * 50),
              etfSharesAfter := st.etfShares,
              hedgeCapitalAfter :=
                st.hedgeCapital + (st.hedgeContracts : ℚ) * (st.hedgeEntryPrice - indexPrice) * 50,
              totalEquityAfter :=
                etfValue + (st.hedgeCapital +
                  (st.hedgeContracts : ℚ) * (st.hedgeEntryPrice - indexPrice) * 50) }] },
          Signal.long,
          (st.hedgeContracts : ℚ) * (st.hedgeEntryPrice - indexPrice) * 50⟩) := by
  simp only [signalPhase]
  split_ifs with h1 h2 h3 h4 h5
  · exact Or.inr (Or.inl ⟨h1, h2.2, _, h3, rfl⟩)
  · exact Or.inl ⟨_, rfl, fun h => absurd h1 h⟩
  · exact Or.inr (Or.inr ⟨h1, h4.2, rfl⟩)
  · exact Or.inl ⟨_, rfl, fun h => absurd h1 h⟩
  · exact Or.inl ⟨_, rfl, fun h => absurd h1 h⟩
  · exact Or.inl ⟨_, rfl, fun h => rfl⟩

theorem stepDay_spec (params : BacktestParams) (i : ℕ) (day : HistoricalData)
    (ma : ℚ) (st : LoopState) :
    (∃ r : DailyResult,
      (stepDay params i day ma st).dailyResults = st.dailyResults ++ [r] ∧
      r.date = day.date ∧ r.indexPrice = day.indexPrice ∧ r.etfPrice = day.etfPrice ∧
      r.maValue = ma ∧
      r.etfShares = (stepDay params i day ma st).etfShares ∧
      r.hedgeCapital = (stepDay params i day ma st).hedgeCapital ∧
      r.hedgeContracts = (stepDay params i day ma st).hedgeContracts ∧
      r.etfValue = ((stepDay params i day ma st).etfShares : ℚ) * 1000 * day.etfPrice ∧
      r.totalEquity = r.etfValue + r.hedgeCapital +
        (if 0 < (stepDay params i day ma st).hedgeContracts then
          ((stepDay params i day ma st).hedgeContracts : ℚ) *
            ((stepDay params i day ma st).hedgeEntryPrice - day.indexPrice) * 50
        else 0) ∧
      (¬ 0 < ma → r.signal = Signal.none ∧ r.hedgePnL = 0) ∧
      ((stepDay params i day ma st).etfShares = st.etfShares →
        (stepDay params i day ma st).hedgeCapital = st.hedgeCapital + r.hedgePnL) ∧
      (st.hedgeContracts = 0 → r.hedgePnL = 0)) ∧
    st.tradeLogs <+: (stepDay params i day ma st).tradeLogs ∧
    (stepDay params i day ma st).tradeLogs.filter
        (fun e => decide (e.type = TradeType.buy)) =
      st.tradeLogs.filter (fun e => decide (e.type = TradeType.buy)) ∧
    (∀ e ∈ (stepDay params i day ma st).tradeLogs, e ∈ st.tradeLogs ∨
      (e.date = day.date ∧ e.type ≠ TradeType.buy ∧
        (e.type = TradeType.rebalance →
          params.enableRebalance = true ∧ 0 < i ∧ day.date.month ≠ st.lastMonth) ∧
        ((e.type = TradeType.hedge_open ∨ e.type = TradeType.hedge_close) → 0 < ma))) ∧
    (stepDay params i day ma st).lastMonth = day.date.month ∧
    (day.date.month = st.lastMonth →
      (stepDay params i day ma st).etfShares = st.etfShares ∧
      (stepDay params i day ma st).rebalanceTrades = st.rebalanceTrades) ∧
    (((stepDay params i day ma st).hedgeContracts = st.hedgeContracts ∧
       (stepDay params i day ma st).hedgeEntryPrice = st.hedgeEntryPrice) ∨
      (st.hedgeContracts = 0 ∧ 0 < (stepDay params i day ma st).hedgeContracts ∧
        (stepDay params i day ma st).hedgeEntryPrice = day.indexPrice) ∨
      (0 < st.hedgeContracts ∧ (stepDay params i day ma st).hedgeContracts = 0)) ∧
    (¬ 0 < i → (stepDay params i day ma st).etfShares = st.etfShares) := by
  rcases rebalancePhase_split params i day.date day.etfPrice st with
    hreb | ⟨hen, hi, hm, hc0, s, hs, hc', hreb⟩
  · rcases signalPhase_cases params day.date day.indexPrice ma
        ((st.etfShares : ℚ) * 1000 * day.etfPrice)
        { st with lastMonth := day.date.month } with
      ⟨sig, hsig, hsn⟩ | ⟨hma, hz, c, hcpos, hsig⟩ | ⟨hma, hpos, hsig⟩ <;>
      simp only [stepDay, hreb, hsig] <;>
      refine ⟨⟨_, rfl, ?_, ?_, ?_, ?_, ?_, ?_, ?_, ?_, ?_, ?_, ?_, ?_⟩,
        ?_, ?_, ?_, ?_, ?_, ?_, ?_⟩ <;>
      first
        | rfl
        | trivial
        | exact List.prefix_rfl
        | exact List.prefix_append _ _
        | exact fun e he => Or.inl he
        | exact fun h => ⟨hsn h, rfl⟩
        | exact fun h => absurd hma h
        | exact fun h => (add_zero _).symm
        | (intro e he
           simp only [List.mem_append, List.mem_singleton] at he
           rcases he with h | rfl
           · exact Or.inl h
           · refine Or.inr ⟨rfl, by simp, fun hh => by simp at hh, fun _ => hma⟩)
        | (refine Or.inl ⟨?_, ?_⟩ <;> trivial)
        | (refine Or.inr (Or.inl ⟨hz, hcpos, ?_⟩) <;> trivial)
        | (refine Or.inr (Or.inr ⟨hpos, ?_⟩) <;> trivial)
        | exact fun h => by simp [h]
        | (simp; done)
  · rcases signalPhase_cases params day.date day.indexPrice ma
        (((st.etfShares + s : ℤ) : ℚ) * 1000 * day.etfPrice)
        { st with
          etfShares := st.etfShares + s
          hedgeCapital := hc'
          rebalanceTrades := st.rebalanceTrades + 1
          lastMonth := day.date.month
          tradeLogs := st.tradeLogs ++ [{
            date := day.date, type := TradeType.rebalance,
            shares := some s, contracts := Option.none,
            price := day.etfPrice, amount := (|s| : ℚ) * 1000 * day.etfPrice,
            pnl := Option.none,
            etfSharesAfter := st.etfShares + s,
            hedgeCapitalAfter := hc',
            totalEquityAfter := (st.etfShares : ℚ) * 1000 * day.etfPrice +
              st.hedgeCapital }] } with
      ⟨sig, hsig, hsn⟩ | ⟨hma, hz, c, hcpos, hsig⟩ | ⟨hma, hpos, hsig⟩ <;>
      simp only [stepDay, hreb, hsig] <;>
      refine ⟨⟨_, rfl, ?_, ?_, ?_, ?_, ?_, ?_, ?_, ?_, ?_, ?_, ?_, ?_⟩,
        ?_, ?_, ?_, ?_, ?_, ?_, ?_⟩ <;>
      first
        | rfl
        | trivial
        | exact List.prefix_append _ _
        | exact (List.prefix_append _ _).trans (List.prefix_append _ _)
        | exact fun h => ⟨hsn h, rfl⟩
        | exact fun h => absurd hma h
        | exact fun h => absurd h hm
        | exact fun h => absurd hi h
        | exact fun h => absurd (by omega : s = 0) hs
        | (intro e he
           simp only [List.mem_append, List.mem_singleton] at he
           rcases he with (h | rfl) | rfl
           · exact Or.inl h
           · refine Or.inr ⟨rfl, by simp, fun _ => ⟨hen, hi, hm⟩, fun hh => by simp at hh⟩
           · refine Or.inr ⟨rfl, by simp, fun hh => by simp at hh, fun _ => hma⟩)
        | (intro e he
           simp only [List.mem_append, List.mem_singleton] at he
           rcases he with h | rfl
           · exact Or.inl h
           · refine Or.inr ⟨rfl, by simp, fun _ => ⟨hen, hi, hm⟩, fun hh => by simp at hh⟩)
        | (refine Or.inl ⟨?_, ?_⟩ <;> trivial)
        | (refine Or.inr (Or.inl ⟨hz, hcpos, ?_⟩) <;> trivial)
        | (refine Or.inr (Or.inr ⟨hpos, ?_⟩) <;> trivial)
        | exact fun h => by simp [h]
        | exact fun h => absurd hpos (by simp [h])
        | (simp; done)

theorem runDays_nil_days (p : BacktestParams) (mas : List ℚ) (i : ℕ) (st : LoopState) :
    runDays p [] mas i st = st := rfl

theorem runDays_nil_mas (p : BacktestParams) (d : HistoricalData)
    (ds : List HistoricalData) (i : ℕ) (st : LoopState) :
    runDays p (d :: ds) [] i st = st := rfl

theorem runDays_cons (p : BacktestParams) (d : HistoricalData) (ds : List HistoricalData)
    (m : ℚ) (ms : List ℚ) (i : ℕ) (st : LoopState) :
    runDays p (d :: ds) (m :: ms) i st = runDays p ds ms (i + 1) (stepDay p i d m st) := rfl

theorem runDays_length (p : BacktestParams) :
    ∀ (days : List HistoricalData) (mas : List ℚ) (i : ℕ) (st : LoopState),
    (runDays p days mas i st).dailyResults.length =
      st.dailyResults.length + min days.length mas.length
  | [], mas, i, st => by simp [runDays_nil_days]
  | d :: ds, [], i, st => by simp [runDays_nil_mas]
  | d :: ds, m :: ms, i, st => by
    rw [runDays_cons, runDays_length p ds ms]
    obtain ⟨⟨r, h1, -⟩, -⟩ := stepDay_spec p i d m st
    rw [h1]
    simp [Nat.succ_min_succ]
    omega

theorem runDays_prefix (p : BacktestParams) :
    ∀ (days : List HistoricalData) (mas : List ℚ) (i : ℕ) (st : LoopState),
    st.dailyResults <+: (runDays p days mas i st).dailyResults ∧
      st.tradeLogs <+: (runDays p days mas i st).tradeLogs
  | [], mas, i, st => ⟨List.prefix_rfl, List.prefix_rfl⟩
  | d :: ds, [], i, st => ⟨List.prefix_rfl, List.prefix_rfl⟩
  | d :: ds, m :: ms, i, st => by
    rw [runDays_cons]
    obtain ⟨⟨r, h1, -⟩, h2, -⟩ := stepDay_spec p i d m st
    obtain ⟨ih1, ih2⟩ := runDays_prefix p ds ms (i + 1) (stepDay p i d m st)
    refine ⟨List.IsPrefix.trans ?_ ih1, List.IsPrefix.trans h2 ih2⟩
    rw [h1]
    exact List.prefix_append _ _

theorem runDays_filter_buy (p : BacktestParams) :
    ∀ (days : List HistoricalData) (mas : List ℚ) (i : ℕ) (st : LoopState),
    (runDays p days mas i st).tradeLogs.filter
        (fun e => decide (e.type = TradeType.buy)) =
      st.tradeLogs.filter (fun e => decide (e.type = TradeType.buy))
  | [], mas, i, st => rfl
  | d :: ds, [], i, st => rfl
  | d :: ds, m :: ms, i, st => by
    rw [runDays_cons, runDays_filter_buy p ds ms]
    obtain ⟨-, -, h3, -⟩ := stepDay_spec p i d m st
    exact h3

theorem runDays_append (p : BacktestParams) :
    ∀ (l1 : List HistoricalData) (m1 : List ℚ), l1.length = m1.length →
    ∀ (l2 : List HistoricalData) (m2 : List ℚ) (i : ℕ) (st : LoopState),
    runDays p (l1 ++ l2) (m1 ++ m2) i st =
      runDays p l2 m2 (i + l1.length) (runDays p l1 m1 i st)
  | [], [], _, l2, m2, i, st => by simp [runDays_nil_days]
  | [], m :: ms, h, l2, m2, i, st => by simp at h
  | d :: ds, [], h, l2, m2, i, st => by simp at h
  | d :: ds, m :: ms, h, l2, m2, i, st => by
    have hlen : i + (d :: ds).length = (i + 1) + ds.length := by
      simp only [List.length_cons]
      omega
    simp only [List.cons_append, runDays_cons]
    rw [hlen, runDays_append p ds ms (by simpa using h) l2 m2 (i + 1)
      (stepDay p i d m st)]

theorem runDays_mem_tradeLogs (p : BacktestParams) :
    ∀ (days : List HistoricalData) (mas : List ℚ) (i : ℕ) (st : LoopState),
    ∀ e ∈ (runDays p days mas i st).tradeLogs, e ∈ st.tradeLogs ∨
      (e.type ≠ TradeType.buy ∧ ∃ j, j < days.length ∧ j < mas.length ∧
        e.date = (days.getD j default).date ∧
        ((e.type = TradeType.hedge_open ∨ e.type = TradeType.hedge_close) →
          0 < mas.getD j 0))
  | [], mas, i, st => fun e he => Or.inl he
  | d :: ds, [], i, st => fun e he => Or.inl he
  | d :: ds, m :: ms, i, st => by
    rw [runDays_cons]
    intro e he
    rcases runDays_mem_tradeLogs p ds ms (i + 1) (stepDay p i d m st) e he with h | h
    · obtain ⟨-, -, -, h4, -⟩ := stepDay_spec p i d m st
      rcases h4 e h with h5 | ⟨hdate, hbuy, -, hhedge⟩
      · exact Or.inl h5
      · exact Or.inr ⟨hbuy, 0, by simp, by simp, hdate, hhedge⟩
    · obtain ⟨hbuy, j, hj1, hj2, hdate, hhedge⟩ := h
      exact Or.inr ⟨hbuy, j + 1, by simpa using hj1, by simpa using hj2, hdate, hhedge⟩

theorem runDays_get_dailyResults (p : BacktestParams) :
    ∀ (days : List HistoricalData) (mas : List ℚ) (i : ℕ) (st : LoopState)
      (j : ℕ), j < days.length → j < mas.length →
    ∃ r, (runDays p days mas i st).dailyResults[st.dailyResults.length + j]? = some r ∧
      r.date = (days.getD j default).date ∧
      r.indexPrice = (days.getD j default).indexPrice ∧
      r.maValue = mas.getD j 0 ∧
      (¬ 0 < mas.getD j 0 → r.signal = Signal.none ∧ r.hedgePnL = 0)
  | [], mas, i, st, j, hj1, hj2 => absurd hj1 (by simp)
  | d :: ds, [], i, st, j, hj1, hj2 => absurd hj2 (by simp)
  | d :: ds, m :: ms, i, st, j, hj1, hj2 => by
    rw [runDays_cons]
    obtain ⟨⟨r, h1, hdate, hidx, -, hma, -, -, -, -, -, hsn, -⟩, -⟩ :=
      stepDay_spec p i d m st
    match j with
    | 0 =>
      refine ⟨r, ?_, hdate, hidx, hma, hsn⟩
      obtain ⟨hpre, -⟩ := runDays_prefix p ds ms (i + 1) (stepDay p i d m st)
      obtain ⟨tail, htail⟩ := hpre
      rw [← htail, h1, List.append_assoc]
      rw [List.getElem?_append_right (by omega)]
      simp
    | j' + 1 =>
      obtain ⟨r', hget, hfacts⟩ := runDays_get_dailyResults p ds ms (i + 1)
        (stepDay p i d m st) j' (by simpa using hj1) (by simpa using hj2)
      refine ⟨r', ?_, hfacts⟩
      rw [← hget, h1]
      congr 1
      simp
      omega

theorem runDays_chain (p : BacktestParams) :
    ∀ (days : List HistoricalData) (mas : List ℚ) (i : ℕ) (st : LoopState),
    lastMatch st → List.Chain' StepRel st.dailyResults → RebProv st →
    (st.dailyResults = [] → i = 0) → 0 ≤ st.hedgeContracts →
    (∀ r ∈ st.dailyResults, 0 ≤ r.hedgeContracts) →
    List.Chain' StepRel (runDays p days mas i st).dailyResults ∧
    RebProv (runDays p days mas i st) ∧
    (∀ r ∈ (runDays p days mas i st).dailyResults, 0 ≤ r.hedgeContracts)
  | [], mas, i, st, hlm, hch, hrp, hemp, hnn, hnna => ⟨hch, hrp, hnna⟩
  | d :: ds, [], i, st, hlm, hch, hrp, hemp, hnn, hnna => ⟨hch, hrp, hnna⟩
  | d :: ds, m :: ms, i, st, hlm, hch, hrp, hemp, hnn, hnna => by
    rw [runDays_cons]
    obtain ⟨⟨r, h1, hdate, -, -, -, hsh, hhcap, hhc, -, -, -, h16, -⟩,
      hpre, -, hmem, hlast9, h10, h13, -⟩ := stepDay_spec p i d m st
    have hlm2 : lastMatch (stepDay p i d m st) := by
      intro last hlast
      rw [h1, List.getLast?_concat] at hlast
      simp only [Option.mem_def, Option.some.injEq] at hlast
      subst hlast
      exact ⟨hsh, hhcap, hhc, by rw [hdate, hlast9]⟩
    have hch2 : List.Chain' StepRel (stepDay p i d m st).dailyResults := by
      rw [h1, List.chain'_append]
      refine ⟨hch, by simp, ?_⟩
      intro x hx y hy
      rw [List.head?_cons] at hy
      simp only [Option.mem_def, Option.some.injEq] at hy
      subst hy
      obtain ⟨hx1, hx2, hx3, hx4⟩ := hlm x hx
      refine ⟨?_, ?_, ?_⟩
      · rw [hhc, hx3]
        rcases h13 with ⟨heq, -⟩ | hrest | hrest
        · exact Or.inl heq
        · exact Or.inr (Or.inl ⟨hrest.1, hrest.2.1⟩)
        · exact Or.inr (Or.inr hrest)
      · intro hse
        rw [hhcap, hx2]
        exact h16 (by rw [← hsh, hse, hx1])
      · intro hmm
        rw [hdate, hx4] at hmm
        obtain ⟨hseq, -⟩ := h10 hmm
        constructor
        · rw [hsh, hx1, hseq]
        · rw [hhcap, hx2]
          exact h16 hseq
    have hrp2 : RebProv (stepDay p i d m st) := by
      intro e he hereb
      rcases hmem e he with hold | ⟨hedate, -, hrebc, -⟩
      · obtain ⟨j, a, b, hja, hjb, hab, hebd⟩ := hrp e hold hereb
        have hjlen : j + 1 < st.dailyResults.length := by
          by_contra hcon
          rw [List.getElem?_eq_none (by omega)] at hjb
          exact Option.noConfusion hjb
        refine ⟨j, a, b, ?_, ?_, hab, hebd⟩
        · rw [h1, List.getElem?_append, if_pos (by omega)]
          exact hja
        · rw [h1, List.getElem?_append, if_pos hjlen]
          exact hjb
      · obtain ⟨-, hipos, hmneq⟩ := hrebc hereb
        have hne : st.dailyResults ≠ [] := fun hcon => by
          rw [hemp hcon] at hipos
          exact absurd hipos (by omega)
        obtain ⟨last, hlastmem⟩ := Option.ne_none_iff_exists'.mp
          (mt List.getLast?_eq_none_iff.mp hne)
        obtain ⟨-, -, -, hlm4⟩ := hlm last hlastmem
        have hlen : 0 < st.dailyResults.length := List.length_pos.mpr hne
        refine ⟨st.dailyResults.length - 1, last, r, ?_, ?_, ?_, ?_⟩
        · rw [h1, List.getElem?_append, if_pos (by omega)]
          rw [List.getLast?_eq_getElem?] at hlastmem
          exact hlastmem
        · rw [h1]
          have : st.dailyResults.length - 1 + 1 = st.dailyResults.length := by omega
          rw [this, List.getElem?_concat_length]
        · rw [hlm4, hdate]
          exact fun hcon => hmneq hcon.symm
        · rw [hedate, hdate]
    have hemp2 : (stepDay p i d m st).dailyResults = [] → i + 1 = 0 := by
      intro hcon
      rw [h1] at hcon
      simp at hcon
    have hnn2 : 0 ≤ (stepDay p i d m st).hedgeContracts := by
      rcases h13 with ⟨heq, -⟩ | ⟨-, hpos, -⟩ | ⟨-, heq⟩
      · rw [heq]
        exact hnn
      · omega
      · omega
    have hnna2 : ∀ r2 ∈ (stepDay p i d m st).dailyResults, 0 ≤ r2.hedgeContracts := by
      intro r2 hr2
      rw [h1] at hr2
      rcases List.mem_append.mp hr2 with hr2 | hr2
      · exact hnna r2 hr2
      · rcases List.mem_singleton.mp hr2 with rfl
        rw [hhc]
        exact hnn2
    exact runDays_chain p ds ms (i + 1) (stepDay p i d m st) hlm2 hch2 hrp2 hemp2 hnn2 hnna2

/-! ## Claim C7: the moving-average series -/

/-- The sum of the slice `l[k .. k+n-1]` as an indexed sum. -/
theorem sum_take_drop (l : List ℚ) (k n : ℕ) (h : k + n ≤ l.length) :
    ((l.drop k).take n).sum = ∑ j ∈ Finset.range n, l.getD (k + j) 0 := by
  induction n with
  | zero => simp
  | succ n ih =>
    have hn : k + n < l.length := by omega
    rw [List.take_succ, List.sum_append, ih (by omega), Finset.sum_range_succ,
      List.getElem?_drop, List.getD_eq_getElem?_getD,
      List.getElem?_eq_getElem hn]
    simp

/-- C7.  For every price list and positive period, `calculateMA` returns a
list of the same length; entries at index `i` with `i + 1 < period` (that
is, `i < period - 1`) are the sentinel 0, and for `period ≤ i + 1` the
entry is the arithmetic mean of `prices[i-period+1 .. i]` rounded to two
decimal places. -/
theorem calculateMA_spec (prices : List ℚ) (period : ℕ) (hp : 0 < period) :
    (calculateMA prices period).length = prices.length ∧
    (∀ i, i < prices.length → i + 1 < period →
      (calculateMA prices period)[i]? = some 0) ∧
    (∀ i, i < prices.length → period ≤ i + 1 →
      (calculateMA prices period)[i]? =
        some (round2
          ((∑ j ∈ Finset.range period, prices.getD (i + 1 - period + j) 0) /
            (period : ℚ)))) := by
  refine ⟨by simp [calculateMA], ?_, ?_⟩
  · intro i hi hlt
    rw [calculateMA, List.getElem?_map, List.getElem?_range hi]
    have h : i < period - 1 := by omega
    simp only [Option.map_some']
    rw [if_pos h]
  · intro i hi hge
    rw [calculateMA, List.getElem?_map, List.getElem?_range hi]
    have h1 : ¬ i < period - 1 := by omega
    have h2 : (i + 1 - period) + period ≤ prices.length := by omega
    simp only [Option.map_some']
    rw [if_neg h1, sum_take_drop prices (i + 1 - period) period h2]

/-- Witness for C7 at `prices = [22000, 21000, 22500]`, `period = 2`. -/
theorem calculateMA_spec_witness :
    (0 : ℕ) < 2 ∧
    ((calculateMA [22000, 21000, 22500] 2).length =
        ([22000, 21000, 22500] : List ℚ).length ∧
      (∀ i, i < ([22000, 21000, 22500] : List ℚ).length → i + 1 < 2 →
        (calculateMA [22000, 21000, 22500] 2)[i]? = some 0) ∧
      (∀ i, i < ([22000, 21000, 22500] : List ℚ).length → 2 ≤ i + 1 →
        (calculateMA [22000, 21000, 22500] 2)[i]? =
          some (round2
            ((∑ j ∈ Finset.range 2,
                ([22000, 21000, 22500] : List ℚ).getD (i + 1 - 2 + j) 0) /
              ((2 : ℕ) : ℚ))))) :=
  ⟨by norm_num, calculateMA_spec [22000, 21000, 22500] 2 (by norm_num)⟩

/-! ## Claim C9: the scenario projector -/

/-- The default ±1500 range with step 100 yields 31 rows. -/
theorem scenarioCount_default : scenarioCount 1500 100 = 31 := by
  norm_num [scenarioCount, jsFloor_eq]
  rfl

/-- C9.  With the default ±1500 range and 100 step the table has 31 rows;
row 15 is the `delta = 0` identity row (projected index price is the base
price and projected P&L is the current unrealized ETF P&L); and every
row's P&L comes from the projected instrument price
`etfPrice * (1 + (delta / baseIndexPrice) * 2)`. -/
theorem generatePnLScenarios_spec (baseIndexPrice etfPrice etfShares etfCost : ℚ)
    (hb : baseIndexPrice ≠ 0) :
    (generatePnLScenarios baseIndexPrice etfPrice etfShares etfCost 1500 100).length = 31 ∧
    (generatePnLScenarios baseIndexPrice etfPrice etfShares etfCost 1500 100)[15]? =
      some { indexPrice := baseIndexPrice, delta := 0,
             etfPnL := etfShares * 1000 * (etfPrice - etfCost),
             totalPnL := etfShares * 1000 * (etfPrice - etfCost) } ∧
    (∀ row ∈ generatePnLScenarios baseIndexPrice etfPrice etfShares etfCost 1500 100,
      row.etfPnL =
        etfShares * 1000 * (etfPrice * (1 + row.delta / baseIndexPrice * 2) - etfCost)) := by
  have hcount := scenarioCount_default
  refine ⟨by simp [generatePnLScenarios, hcount], ?_, ?_⟩
  · rw [generatePnLScenarios, List.getElem?_map, hcount,
      List.getElem?_range (by norm_num : (15:ℕ) < 31)]
    simp only [Option.map_some', Option.some.injEq, Scenario.mk.injEq,
      LEVERAGE, SHARES_PER_UNIT]
    norm_num
    ring
  · intro row hrow
    rw [generatePnLScenarios] at hrow
    obtain ⟨k, _, rfl⟩ := List.mem_map.mp hrow
    simp only [LEVERAGE, SHARES_PER_UNIT]
    ring

/-- Witness for C9 at base 22000, price 180, 5 lots, cost 170. -/
theorem generatePnLScenarios_spec_witness :
    (22000 : ℚ) ≠ 0 ∧
    ((generatePnLScenarios 22000 180 5 170 1500 100).length = 31 ∧
      (generatePnLScenarios 22000 180 5 170 1500 100)[15]? =
        some { indexPrice := 22000, delta := 0,
               etfPnL := 5 * 1000 * ((180 : ℚ) - 170),
               totalPnL := 5 * 1000 * ((180 : ℚ) - 170) } ∧
      (∀ row ∈ generatePnLScenarios 22000 180 5 170 1500 100,
        row.etfPnL = 5 * 1000 * (180 * (1 + row.delta / 22000 * 2) - 170))) :=
  ⟨by norm_num, generatePnLScenarios_spec 22000 180 5 170 (by norm_num)⟩

/-! ## Claim C3: the unguarded divisions -/

def c3Data : List HistoricalData := [⟨⟨2024, 1, 2⟩, 22000, 180⟩]

def c3Params : BacktestParams :=
  ⟨⟨2024, 1, 1⟩, ⟨2024, 12, 31⟩, 0, 4/5, 2, 100000, 2, false⟩

/-- C3 evidence.  Neither division is guarded and no
`InvalidParameterError` exists anywhere in the code: `generatePnLScenarios`
with a zero base index price still returns the full 31-row table (in
JavaScript every row's `delta / baseIndexPrice` is then NaN or ±Infinity),
and `runBacktest` with `initialCapital = 0` — which makes the drawdown
divisor `maxEquity` zero — still returns a complete `BacktestResult`
(JavaScript computes `0/0 = NaN` for the drawdown; the ℚ model renders
that unguarded division as 0). -/
theorem unguarded_divisions_eval :
    (generatePnLScenarios 0 100 5 90 1500 100).length = 31 ∧
    (runBacktest c3Data c3Params).map (fun r => r.summary.maxDrawdown) =
      Except.ok 0 := by
  constructor
  · simp [generatePnLScenarios, scenarioCount_default]
  · norm_num [runBacktest, okResult, finalState, initState, initLog, c3Data,
      c3Params, inRange, Date.le, calculateMA, runDays, stepDay, rebalancePhase,
      signalPhase, round2, jsRound_eq, round_eq, jsFloor_eq, List.range_succ,
      List.filter, Except.map]

/-! ## Run-level helpers -/

theorem calculateMA_length (prices : List ℚ) (period : ℕ) :
    (calculateMA prices period).length = prices.length := by
  simp [calculateMA]

theorem finalState_dailyResults_length (params : BacktestParams)
    (fd : List HistoricalData) :
    (finalState params fd).dailyResults.length = fd.length := by
  rw [finalState, runDays_length]
  simp [initState, calculateMA_length]

theorem stateAt_dailyResults_length (params : BacktestParams)
    (fd : List HistoricalData) (k : ℕ) (hk : k ≤ fd.length) :
    (stateAt params fd k).dailyResults.length = k := by
  rw [stateAt, runDays_length]
  simp only [initState, List.length_nil, List.length_take, calculateMA_length,
    List.length_map]
  omega

theorem stateAt_succ (params : BacktestParams) (fd : List HistoricalData) (j : ℕ)
    (hj : j < fd.length) :
    stateAt params fd (j + 1) =
      stepDay params j (fd.getD j default)
        ((calculateMA (fd.map (·.indexPrice)) params.maPeriod).getD j 0)
        (stateAt params fd j) := by
  have hm : j < (calculateMA (fd.map (·.indexPrice)) params.maPeriod).length := by
    rw [calculateMA_length, List.length_map]
    exact hj
  have h1 : fd.take (j + 1) = fd.take j ++ [fd.getD j default] := by
    rw [List.take_succ, List.getElem?_eq_getElem hj, List.getD_eq_getElem fd default hj]
    rfl
  have h2 : (calculateMA (fd.map (·.indexPrice)) params.maPeriod).take (j + 1) =
      (calculateMA (fd.map (·.indexPrice)) params.maPeriod).take j ++
        [(calculateMA (fd.map (·.indexPrice)) params.maPeriod).getD j 0] := by
    rw [List.take_succ, List.getElem?_eq_getElem hm, List.getD_eq_getElem _ 0 hm]
    rfl
  have hlen : (fd.take j).length = ((calculateMA (fd.map (·.indexPrice))
      params.maPeriod).take j).length := by
    simp [calculateMA_length]
  have hidx : 0 + (fd.take j).length = j := by
    simp only [List.length_take, Nat.zero_add]
    omega
  rw [stateAt, stateAt, h1, h2, runDays_append params (fd.take j) _ hlen, hidx,
    runDays_cons, runDays_nil_days]

theorem finalState_entry (params : BacktestParams) (fd : List HistoricalData)
    (j : ℕ) (hj : j < fd.length) :
    ∃ r, (finalState params fd).dailyResults[j]? = some r ∧
      r.hedgeContracts = (stateAt params fd (j + 1)).hedgeContracts ∧
      r.totalEquity = r.etfValue + r.hedgeCapital +
        (if 0 < r.hedgeContracts then
          (r.hedgeContracts : ℚ) *
            ((stateAt params fd (j + 1)).hedgeEntryPrice - r.indexPrice) * 50
        else 0) ∧
      r.etfValue = (r.etfShares : ℚ) * 1000 * r.etfPrice := by
  obtain ⟨⟨r, h1, -, hidx, hep, -, he, -, hcc, hev, hte, -⟩, -⟩ :=
    stepDay_spec params j (fd.getD j default)
      ((calculateMA (fd.map (·.indexPrice)) params.maPeriod).getD j 0)
      (stateAt params fd j)
  have hdr1 : (stateAt params fd (j + 1)).dailyResults =
      (stateAt params fd j).dailyResults ++ [r] := by
    rw [stateAt_succ params fd j hj]
    exact h1
  have hlen : (stateAt params fd j).dailyResults.length = j :=
    stateAt_dailyResults_length params fd j (by omega)
  have hlen1 : (fd.take (j + 1)).length =
      ((calculateMA (fd.map (·.indexPrice)) params.maPeriod).take (j + 1)).length := by
    simp [calculateMA_length]
  have hsplit : runDays params (fd.drop (j + 1))
        ((calculateMA (fd.map (·.indexPrice)) params.maPeriod).drop (j + 1))
        (0 + (fd.take (j + 1)).length) (stateAt params fd (j + 1)) =
      finalState params fd := by
    rw [stateAt, ← runDays_append params (fd.take (j + 1)) _ hlen1,
      List.take_append_drop, List.take_append_drop]
    rfl
  obtain ⟨t, ht⟩ := ( runDays_prefix params (fd.drop (j + 1))
    ((calculateMA (fd.map (·.indexPrice)) params.maPeriod).drop (j + 1))
    (0 + (fd.take (j + 1)).length) (stateAt params fd (j + 1))).1
  rw [hsplit] at ht
  refine ⟨r, ?_, ?_, ?_, ?_⟩
  · rw [← ht, hdr1, List.getElem?_append, if_pos (by simp [hlen]),
      List.getElem?_append, if_neg (by rw [hlen]; omega), hlen]
    simp
  · rw [stateAt_succ params fd j hj]
    exact hcc
  · rw [stateAt_succ params fd j hj, hcc, hidx]
    exact hte
  · rw [hev, he, hep]

theorem runBacktest_ok_inv (data : List HistoricalData) (params : BacktestParams)
    (res : BacktestResult) (h : runBacktest data params = Except.ok res) :
    data.filter (inRange params) ≠ [] ∧
    res.dailyResults = (finalState params (data.filter (inRange params))).dailyResults ∧
    res.tradeLogs = (finalState params (data.filter (inRange params))).tradeLogs := by
  rw [runBacktest] at h
  by_cases hc : (data.filter (inRange params)).isEmpty = true
  · rw [if_pos hc] at h
    exact absurd h (by simp)
  · rw [if_neg hc] at h
    have hr := (Except.ok.inj h).symm
    subst hr
    exact ⟨by simpa [List.isEmpty_iff] using hc, rfl, rfl⟩

theorem initState_invariants (params : BacktestParams) (first : HistoricalData) :
    lastMatch (initState params first) ∧
    List.Chain' StepRel (initState params first).dailyResults ∧
    RebProv (initState params first) ∧
    ((initState params first).dailyResults = [] → (0 : ℕ) = 0) ∧
    (0 : ℤ) ≤ (initState params first).hedgeContracts ∧
    (∀ r ∈ (initState params first).dailyResults, 0 ≤ r.hedgeContracts) := by
  refine ⟨?_, ?_, ?_, fun _ => rfl, ?_, ?_⟩
  · intro last hlast
    simp [initState] at hlast
  · simp [initState]
  · intro e he hereb
    simp only [initState, List.mem_singleton] at he
    subst he
    simp [initLog] at hereb
  · simp [initState]
  · intro r hr
    simp [initState] at hr

theorem finalState_chain (params : BacktestParams) (fd : List HistoricalData) :
    List.Chain' StepRel (finalState params fd).dailyResults ∧
    RebProv (finalState params fd) ∧
    (∀ r ∈ (finalState params fd).dailyResults, 0 ≤ r.hedgeContracts) := by
  obtain ⟨h1, h2, h3, h4, h5, h6⟩ := initState_invariants params (fd.headD default)
  exact runDays_chain params fd _ 0 _ h1 h2 h3 h4 h5 h6

/-! ## Claim C8: empty-range failure and one result per in-range day -/

/-- C8.  `runBacktest` fails (with the no-data error) exactly when no
observation satisfies `startDate ≤ date ≤ endDate`; with at least one
in-range observation it returns a full result whose `dailyResults` has
exactly one entry per in-range observation. -/
theorem runBacktest_empty_range (data : List HistoricalData) (params : BacktestParams) :
    (data.filter (inRange params) = [] →
      runBacktest data params = Except.error "No data in selected date range") ∧
    (data.filter (inRange params) ≠ [] →
      ∃ res, runBacktest data params = Except.ok res ∧
        res.dailyResults.length = (data.filter (inRange params)).length) := by
  constructor
  · intro h
    rw [runBacktest, if_pos (by simp [h])]
  · intro h
    rw [runBacktest, if_neg (by simpa [List.isEmpty_iff] using h)]
    exact ⟨_, rfl, finalState_dailyResults_length params _⟩

/-- Witness for C8: a one-day series inside the range (the nonempty arm)
and an out-of-range query (the empty arm). -/
theorem runBacktest_empty_range_witness :
    (([⟨⟨2024, 1, 2⟩, 22000, 180⟩] : List HistoricalData).filter
        (inRange ⟨⟨2024, 1, 1⟩, ⟨2024, 12, 31⟩, 1000000, 4/5, 2, 100000, 2, false⟩) ≠ [] ∧
      ∃ res, runBacktest [⟨⟨2024, 1, 2⟩, 22000, 180⟩]
          ⟨⟨2024, 1, 1⟩, ⟨2024, 12, 31⟩, 1000000, 4/5, 2, 100000, 2, false⟩ =
            Except.ok res ∧
        res.dailyResults.length =
          (([⟨⟨2024, 1, 2⟩, 22000, 180⟩] : List HistoricalData).filter
            (inRange ⟨⟨2024, 1, 1⟩, ⟨2024, 12, 31⟩, 1000000, 4/5, 2, 100000, 2, false⟩)).length) ∧
    (([⟨⟨2024, 1, 2⟩, 22000, 180⟩] : List HistoricalData).filter
        (inRange ⟨⟨2025, 1, 1⟩, ⟨2025, 12, 31⟩, 1000000, 4/5, 2, 100000, 2, false⟩) = [] ∧
      runBacktest [⟨⟨2024, 1, 2⟩, 22000, 180⟩]
          ⟨⟨2025, 1, 1⟩, ⟨2025, 12, 31⟩, 1000000, 4/5, 2, 100000, 2, false⟩ =
        Except.error "No data in selected date range") := by
  have hne : ([⟨⟨2024, 1, 2⟩, 22000, 180⟩] : List HistoricalData).filter
      (inRange ⟨⟨2024, 1, 1⟩, ⟨2024, 12, 31⟩, 1000000, 4/5, 2, 100000, 2, false⟩) ≠ [] := by
    simp [inRange, Date.le]
  have hemp : ([⟨⟨2024, 1, 2⟩, 22000, 180⟩] : List HistoricalData).filter
      (inRange ⟨⟨2025, 1, 1⟩, ⟨2025, 12, 31⟩, 1000000, 4/5, 2, 100000, 2, false⟩) = [] := by
    simp [inRange, Date.le]
  exact ⟨⟨hne, (runBacktest_empty_range _ _).2 hne⟩,
    hemp, (runBacktest_empty_range _ _).1 hemp⟩

/-! ## Claim C4: equity conservation -/

/-- C4.  Every emitted `DailyResult` (the `j`-th of the run) satisfies
`totalEquity = etfValue + hedgeCapital + unrealizedHedgePnL` exactly, where
the unrealized P&L is `hedgeContracts·(hedgeEntryPrice - indexPrice)·50`
when a position is open and 0 otherwise; the entry price is the engine's
live `hedgeEntryPrice` — the field of `stateAt params … (j+1)`, the loop
state right after day `j` is processed (the first conjunct pins the
record's contract count to that same state, so the identity is about the
actual open position, not an unconstrained price).  Across consecutive days
the reserve changes only by the day's realized hedge P&L unless a rebalance
moved shares — unrealized P&L is never written into `hedgeCapital`. -/
theorem totalEquity_conservation (data : List HistoricalData)
    (params : BacktestParams) (res : BacktestResult)
    (h : runBacktest data params = Except.ok res) :
    (∀ j r, res.dailyResults[j]? = some r →
      r.hedgeContracts =
        (stateAt params (data.filter (inRange params)) (j + 1)).hedgeContracts ∧
      r.totalEquity = r.etfValue + r.hedgeCapital +
        (if 0 < r.hedgeContracts then
          (r.hedgeContracts : ℚ) *
            ((stateAt params (data.filter (inRange params)) (j + 1)).hedgeEntryPrice -
              r.indexPrice) * 50
        else 0) ∧
      r.etfValue = (r.etfShares : ℚ) * 1000 * r.etfPrice) ∧
    List.Chain' (fun a b => b.etfShares = a.etfShares →
      b.hedgeCapital = a.hedgeCapital + b.hedgePnL) res.dailyResults := by
  obtain ⟨-, hdr, -⟩ := runBacktest_ok_inv data params res h
  rw [hdr]
  constructor
  · intro j r hr
    have hj : j < (data.filter (inRange params)).length := by
      by_contra hcon
      have hlen : (finalState params
          (data.filter (inRange params))).dailyResults.length ≤ j := by
        rw [finalState_dailyResults_length]
        omega
      rw [List.getElem?_eq_none hlen] at hr
      exact Option.noConfusion hr
    obtain ⟨r', hget, hfacts⟩ :=
      finalState_entry params (data.filter (inRange params)) j hj
    rw [hget] at hr
    obtain rfl := Option.some.inj hr
    exact hfacts
  · exact ((finalState_chain params _).1).imp fun a b hab => hab.2.1

/-! ## Claim C5: hedge position transitions -/

/-- C5.  `hedgeContracts` is non-negative on every emitted day, and between
consecutive days it either stays unchanged, opens from zero to a positive
count, or closes from a positive count to zero — never moving directly
between two different positive values. -/
theorem hedgeContracts_transitions (data : List HistoricalData)
    (params : BacktestParams) (res : BacktestResult)
    (h : runBacktest data params = Except.ok res) :
    (∀ r ∈ res.dailyResults, 0 ≤ r.hedgeContracts) ∧
    List.Chain' (fun a b => b.hedgeContracts = a.hedgeContracts ∨
      (a.hedgeContracts = 0 ∧ 0 < b.hedgeContracts) ∨
      (0 < a.hedgeContracts ∧ b.hedgeContracts = 0)) res.dailyResults := by
  obtain ⟨-, hdr, -⟩ := runBacktest_ok_inv data params res h
  rw [hdr]
  obtain ⟨hch, -, hnn⟩ := finalState_chain params _
  exact ⟨hnn, hch.imp fun a b hab => hab.1⟩

/-! ## Claim C10: month-boundary detection compares only the month number -/

/-- C10.  Between two consecutive emitted days whose dates carry the same
month-of-year number (`Date.getMonth()`; calendar years may differ), the
monthly-rebalance branch does not execute: `etfShares` is unchanged and
`hedgeCapital` changes only by the day's realized hedge P&L.  Moreover
every `rebalance` trade log entry is dated on a day whose month number
differs from the previous day's month number. -/
theorem rebalance_month_only (data : List HistoricalData)
    (params : BacktestParams) (res : BacktestResult)
    (h : runBacktest data params = Except.ok res) :
    List.Chain' (fun a b => b.date.month = a.date.month →
      b.etfShares = a.etfShares ∧ b.hedgeCapital = a.hedgeCapital + b.hedgePnL)
      res.dailyResults ∧
    (∀ e ∈ res.tradeLogs, e.type = TradeType.rebalance →
      ∃ j a b, res.dailyResults[j]? = some a ∧ res.dailyResults[j + 1]? = some b ∧
        a.date.month ≠ b.date.month ∧ e.date = b.date) := by
  obtain ⟨-, hdr, htl⟩ := runBacktest_ok_inv data params res h
  rw [hdr, htl]
  obtain ⟨hch, hrp, -⟩ := finalState_chain params _
  exact ⟨hch.imp fun a b hab => hab.2.2, hrp⟩

/-! ## Claim C2: warm-up suppression of hedge logic -/

theorem calculateMA_sentinel (prices : List ℚ) (period : ℕ) (j : ℕ)
    (hj : j < prices.length) (hlt : j + 1 < period) :
    (calculateMA prices period)[j]? = some 0 := by
  rw [calculateMA, List.getElem?_map, List.getElem?_range hj]
  have h : j < period - 1 := by omega
  simp only [Option.map_some']
  rw [if_pos h]

theorem finalState_get (params : BacktestParams) (fd : List HistoricalData)
    (j : ℕ) (hj : j < fd.length) :
    ∃ r, (finalState params fd).dailyResults[j]? = some r ∧
      r.date = (fd.getD j default).date ∧
      r.indexPrice = (fd.getD j default).indexPrice ∧
      r.maValue = (calculateMA (fd.map (·.indexPrice)) params.maPeriod).getD j 0 ∧
      (¬ 0 < (calculateMA (fd.map (·.indexPrice)) params.maPeriod).getD j 0 →
        r.signal = Signal.none ∧ r.hedgePnL = 0) := by
  obtain ⟨r, hget, hfacts⟩ := runDays_get_dailyResults params fd
    (calculateMA (fd.map (·.indexPrice)) params.maPeriod) 0
    (initState params (fd.headD default)) j hj
    (by simpa [calculateMA_length] using hj)
  refine ⟨r, ?_, hfacts⟩
  rw [finalState]
  simpa [initState] using hget

/-- C2 (amended: rebalancing is not suppressed during warm-up).  While the
MA is still the undefined sentinel — the first `maPeriod - 1` emitted days —
every emitted signal is `none` and no realized hedge P&L occurs, and every
`hedge_open`/`hedge_close` trade log entry of the whole run is dated on a
day of index at least `maPeriod - 1`. -/
theorem warmup_suppression (data : List HistoricalData) (params : BacktestParams)
    (res : BacktestResult) (h : runBacktest data params = Except.ok res) :
    (∀ j r, res.dailyResults[j]? = some r → j + 1 < params.maPeriod →
      r.signal = Signal.none ∧ r.hedgePnL = 0) ∧
    (∀ e ∈ res.tradeLogs,
      (e.type = TradeType.hedge_open ∨ e.type = TradeType.hedge_close) →
      ∃ j r, res.dailyResults[j]? = some r ∧ params.maPeriod ≤ j + 1 ∧
        e.date = r.date) := by
  obtain ⟨-, hdr, htl⟩ := runBacktest_ok_inv data params res h
  constructor
  · intro j r hget hwarm
    rw [hdr] at hget
    have hj : j < (data.filter (inRange params)).length := by
      by_contra hcon
      rw [List.getElem?_eq_none
        (by rw [finalState_dailyResults_length]; omega)] at hget
      exact Option.noConfusion hget
    obtain ⟨r2, hget2, -, -, -, hsn2⟩ := finalState_get params _ j hj
    rw [hget] at hget2
    rcases Option.some.inj hget2 with rfl
    apply hsn2
    rw [List.getD_eq_getElem?_getD, calculateMA_sentinel _ _ j (by simpa using hj) hwarm]
    simp
  · intro e he hhedge
    rw [htl] at he
    rcases runDays_mem_tradeLogs params _ _ 0 _ e he with hinit | ⟨-, j, hj1, hj2, hdate, hma⟩
    · simp only [initState, List.mem_singleton] at hinit
      subst hinit
      rcases hhedge with hh | hh <;> simp [initLog] at hh
    · have hmapos := hma hhedge
      have hge : params.maPeriod ≤ j + 1 := by
        by_contra hcon
        rw [List.getD_eq_getElem?_getD,
          calculateMA_sentinel _ _ j (by simpa using hj1) (by omega)] at hmapos
        simp at hmapos
      obtain ⟨r, hget, hrdate, -, -, -⟩ := finalState_get params _ j hj1
      exact ⟨j, r, by rw [hdr]; exact hget, hge, by rw [hdate, hrdate]⟩

/-! ## Claim C1: initialization -/

/-- C1 (amended: the first `DailyResult`'s `totalEquity` is the floored ETF
value plus the reserve, not `initialCapital`).  With at least one in-range
observation the run succeeds; the trade log starts with the one `buy` entry
— whose `totalEquityAfter` field does equal `initialCapital` exactly and
whose share count is `floor(capital·ratio / (firstEtfPrice·1000))` — and no
other `buy` entry is ever emitted; the first emitted `DailyResult` holds
those shares and a reserve of `capital·(1-ratio)`, and its `totalEquity` is
`shares·1000·firstEtfPrice + capital·(1-ratio)`, which equals
`initialCapital` only when the ETF allocation is a whole number of lots. -/
theorem initialization_spec (data : List HistoricalData) (params : BacktestParams)
    (hne : data.filter (inRange params) ≠ []) :
    ∃ res, runBacktest data params = Except.ok res ∧
      res.tradeLogs.head? =
        some (initLog params ((data.filter (inRange params)).headD default)) ∧
      (res.tradeLogs.filter (fun e => decide (e.type = TradeType.buy))).length = 1 ∧
      ∃ r, res.dailyResults.head? = some r ∧
        r.etfShares = jsFloor (params.initialCapital * params.etfRatio /
          (((data.filter (inRange params)).headD default).etfPrice * 1000)) ∧
        r.hedgeCapital = params.initialCapital * (1 - params.etfRatio) ∧
        r.totalEquity = ((jsFloor (params.initialCapital * params.etfRatio /
            (((data.filter (inRange params)).headD default).etfPrice * 1000)) : ℤ) : ℚ) *
            1000 * ((data.filter (inRange params)).headD default).etfPrice +
          params.initialCapital * (1 - params.etfRatio) := by
  rw [runBacktest, if_neg (by simpa [List.isEmpty_iff] using hne)]
  refine ⟨_, rfl, ?_, ?_, ?_⟩
  · obtain ⟨-, hpre⟩ := runDays_prefix params (data.filter (inRange params))
      (calculateMA ((data.filter (inRange params)).map (·.indexPrice)) params.maPeriod) 0
      (initState params ((data.filter (inRange params)).headD default))
    obtain ⟨t, ht⟩ := hpre
    show (finalState params (data.filter (inRange params))).tradeLogs.head? = _
    rw [finalState, ← ht]
    simp [initState]
  · show ((finalState params (data.filter (inRange params))).tradeLogs.filter _).length = 1
    rw [finalState, runDays_filter_buy]
    simp [initState, initLog]
  · obtain ⟨f, rest, hfd⟩ := List.exists_cons_of_ne_nil hne
    obtain ⟨m, ms, hmas⟩ : ∃ m ms,
        calculateMA ((data.filter (inRange params)).map (·.indexPrice)) params.maPeriod =
          m :: ms := by
      rcases hcalc : calculateMA ((data.filter (inRange params)).map (·.indexPrice))
        params.maPeriod with _ | ⟨m, ms⟩
      · have := calculateMA_length ((data.filter (inRange params)).map (·.indexPrice))
          params.maPeriod
        rw [hcalc, hfd] at this
        simp at this
      · exact ⟨m, ms, hcalc⟩
    have hhead : (data.filter (inRange params)).headD default = f := by rw [hfd]; rfl
    obtain ⟨⟨r, h1, -, -, -, -, hsh, hhcap, hhc, hev, hte, -, h16, h17⟩,
      -, -, -, -, -, h13, h19⟩ :=
      stepDay_spec params 0 f m (initState params f)
    have hstart : (stepDay params 0 f m (initState params f)).dailyResults = [r] := by
      rw [h1]
      simp [initState]
    refine ⟨r, ?_, ?_, ?_, ?_⟩
    · show (finalState params (data.filter (inRange params))).dailyResults.head? = some r
      rw [finalState, hmas, hfd]
      simp only [List.headD_cons]
      rw [runDays_cons]
      obtain ⟨hpre, -⟩ := runDays_prefix params rest ms 1 (stepDay params 0 f m (initState params f))
      obtain ⟨t, ht⟩ := hpre
      rw [← ht, hstart]
      rfl
    · rw [hsh, h19 (by omega), hhead]
      rfl
    · rw [hhcap, h16 (h19 (by omega)), h17 (by rfl), add_zero]
      rfl
    · have hshares0 : (stepDay params 0 f m (initState params f)).etfShares =
          (initState params f).etfShares := h19 (by omega)
      have hcap0 : r.hedgeCapital = (initState params f).hedgeCapital := by
        rw [hhcap, h16 hshares0, h17 (by rfl), add_zero]
      have hunreal : (if 0 < (stepDay params 0 f m (initState params f)).hedgeContracts then
          ((stepDay params 0 f m (initState params f)).hedgeContracts : ℚ) *
            ((stepDay params 0 f m (initState params f)).hedgeEntryPrice - f.indexPrice) * 50
        else 0) = 0 := by
        rcases h13 with ⟨heq, -⟩ | ⟨-, hpos, hentry⟩ | ⟨habs, -⟩
        · rw [if_neg]
          rw [heq]
          show ¬ (0 < (0 : ℤ))
          omega
        · rw [if_pos hpos, hentry]
          ring
        · exact absurd habs (by show ¬ (0 < (0 : ℤ)); omega)
      rw [hte, hunreal, hev, hshares0, hcap0, hhead]
      show _ + _ + 0 = _
      rw [add_zero]
      rfl

/-! ## Claim C6: closing the hedge at/above the MA -/

theorem signalPhase_close (params : BacktestParams) (date : Date)
    (indexPrice maValue etfValue : ℚ) (st : LoopState)
    (hma : 0 < maValue) (hnb : ¬ indexPrice < maValue)
    (hpos : 0 < st.hedgeContracts) :
    signalPhase params date indexPrice maValue etfValue st =
      ⟨{ st with
          hedgeCapital :=
            st.hedgeCapital + (st.hedgeContracts : ℚ) * (st.hedgeEntryPrice - indexPrice) * 50
          totalHedgePnL :=
            st.totalHedgePnL + (st.hedgeContracts : ℚ) * (st.hedgeEntryPrice - indexPrice) * 50
          hedgeContracts := 0
          hedgeEntryPrice := 0
          tradeLogs := st.tradeLogs ++ [{
            date := date, type := TradeType.hedge_close,
            shares := Option.none, contracts := some st.hedgeContracts,
            price := indexPrice, amount := 0,
            pnl := some ((st.hedgeContracts : ℚ) * (st.hedgeEntryPrice - indexPrice) * 50),
            etfSharesAfter := st.etfShares,
            hedgeCapitalAfter :=
              st.hedgeCapital + (st.hedgeContracts : ℚ) * (st.hedgeEntryPrice - indexPrice) * 50,
            totalEquityAfter :=
              etfValue + (st.hedgeCapital +
                (st.hedgeContracts : ℚ) * (st.hedgeEntryPrice - indexPrice) * 50) }] },
        Signal.long,
        (st.hedgeContracts : ℚ) * (st.hedgeEntryPrice - indexPrice) * 50⟩ := by
  simp only [signalPhase]
  rw [if_pos hma, if_neg (fun hcon => hnb hcon.1.2), if_pos ⟨fun hcon => hnb hcon.2, hpos⟩]

/-- C6.  On a day whose MA is defined (`maValue > 0`), with the index at or
above the MA and a hedge open, the step closes the position: the realized
P&L `hedgeContracts·(hedgeEntryPrice - indexPrice)·50` is added to the
reserve and to the running total hedge P&L, exactly one `hedge_close`
entry carrying that P&L is appended, `hedgeContracts` is reset to 0, and
the emitted day's signal is `long`. -/
theorem hedge_close_step (params : BacktestParams) (i : ℕ) (day : HistoricalData)
    (ma : ℚ) (st : LoopState) (hma : 0 < ma) (hnb : ¬ day.indexPrice < ma)
    (hpos : 0 < st.hedgeContracts) :
    (stepDay params i day ma st).hedgeCapital =
      st.hedgeCapital + (st.hedgeContracts : ℚ) * (st.hedgeEntryPrice - day.indexPrice) * 50 ∧
    (stepDay params i day ma st).totalHedgePnL =
      st.totalHedgePnL + (st.hedgeContracts : ℚ) * (st.hedgeEntryPrice - day.indexPrice) * 50 ∧
    (stepDay params i day ma st).hedgeContracts = 0 ∧
    (stepDay params i day ma st).tradeLogs = st.tradeLogs ++ [{
      date := day.date, type := TradeType.hedge_close,
      shares := Option.none, contracts := some st.hedgeContracts,
      price := day.indexPrice, amount := 0,
      pnl := some ((st.hedgeContracts : ℚ) * (st.hedgeEntryPrice - day.indexPrice) * 50),
      etfSharesAfter := st.etfShares,
      hedgeCapitalAfter :=
        st.hedgeCapital + (st.hedgeContracts : ℚ) * (st.hedgeEntryPrice - day.indexPrice) * 50,
      totalEquityAfter :=
        (st.etfShares : ℚ) * 1000 * day.etfPrice + (st.hedgeCapital +
          (st.hedgeContracts : ℚ) * (st.hedgeEntryPrice - day.indexPrice) * 50) }] ∧
    ∃ r, (stepDay params i day ma st).dailyResults = st.dailyResults ++ [r] ∧
      r.signal = Signal.long ∧
      r.hedgePnL = (st.hedgeContracts : ℚ) * (st.hedgeEntryPrice - day.indexPrice) * 50 := by
  rcases rebalancePhase_split params i day.date day.etfPrice st with
    hreb | ⟨-, -, -, hc0, -⟩
  · have hsig := signalPhase_close params day.date day.indexPrice ma
      ((st.etfShares : ℚ) * 1000 * day.etfPrice)
      { st with lastMonth := day.date.month } hma hnb hpos
    simp only [stepDay, hreb, hsig]
    refine ⟨?_, ?_, ?_, ?_, _, rfl, ?_, ?_⟩ <;> trivial
  · rw [hc0] at hpos
    exact absurd hpos (by omega)

/-! ## Concrete runs for witnesses and counterexamples -/

theorem runBacktest_ok_of_ne (data : List HistoricalData) (params : BacktestParams)
    (h : data.filter (inRange params) ≠ []) :
    runBacktest data params = Except.ok (okResult params (data.filter (inRange params))) := by
  rw [runBacktest, if_neg (by simpa [List.isEmpty_iff] using h)]

/-- The three-day scenario of the spec: index 22000/21000/22500, ETF prices
180/175/182, capital 1,000,000, ratio 0.8, MA period 2. -/
def wData3 : List HistoricalData :=
  [⟨⟨2024, 1, 2⟩, 22000, 180⟩, ⟨⟨2024, 1, 3⟩, 21000, 175⟩, ⟨⟨2024, 1, 4⟩, 22500, 182⟩]

def wParams3 : BacktestParams :=
  ⟨⟨2024, 1, 1⟩, ⟨2024, 12, 31⟩, 1000000, 4/5, 2, 100000, 2, true⟩

theorem wData3_ne : wData3.filter (inRange wParams3) ≠ [] := by
  simp [wData3, wParams3, inRange, Date.le]

/-- Two January observations a year apart (same `getMonth()` value). -/
def wDataYear : List HistoricalData :=
  [⟨⟨2020, 1, 31⟩, 22000, 180⟩, ⟨⟨2021, 1, 4⟩, 22500, 100⟩]

def wParamsYear : BacktestParams :=
  ⟨⟨2020, 1, 1⟩, ⟨2021, 12, 31⟩, 1000000, 4/5, 13, 100000, 2, true⟩

theorem wDataYear_ne : wDataYear.filter (inRange wParamsYear) ≠ [] := by
  simp [wDataYear, wParamsYear, inRange, Date.le]

/-- Witness for C4 at the three-day scenario (a hedge is open on the second
day, so the open-position arm of the identity is exercised with the engine's
recorded entry price). -/
theorem totalEquity_conservation_witness :
    runBacktest wData3 wParams3 =
      Except.ok (okResult wParams3 (wData3.filter (inRange wParams3))) ∧
    ((∀ j r,
      (okResult wParams3 (wData3.filter (inRange wParams3))).dailyResults[j]? =
        some r →
      r.hedgeContracts =
        (stateAt wParams3 (wData3.filter (inRange wParams3)) (j + 1)).hedgeContracts ∧
      r.totalEquity = r.etfValue + r.hedgeCapital +
        (if 0 < r.hedgeContracts then
          (r.hedgeContracts : ℚ) *
            ((stateAt wParams3 (wData3.filter (inRange wParams3))
                (j + 1)).hedgeEntryPrice - r.indexPrice) * 50
        else 0) ∧
      r.etfValue = (r.etfShares : ℚ) * 1000 * r.etfPrice) ∧
    List.Chain' (fun a b => b.etfShares = a.etfShares →
      b.hedgeCapital = a.hedgeCapital + b.hedgePnL)
      (okResult wParams3 (wData3.filter (inRange wParams3))).dailyResults) := by
  have heq := runBacktest_ok_of_ne wData3 wParams3 wData3_ne
  exact ⟨heq, totalEquity_conservation wData3 wParams3 _ heq⟩

/-- Witness for C5 at the three-day scenario. -/
theorem hedgeContracts_transitions_witness :
    runBacktest wData3 wParams3 =
      Except.ok (okResult wParams3 (wData3.filter (inRange wParams3))) ∧
    ((∀ r ∈ (okResult wParams3 (wData3.filter (inRange wParams3))).dailyResults,
      0 ≤ r.hedgeContracts) ∧
    List.Chain' (fun a b => b.hedgeContracts = a.hedgeContracts ∨
      (a.hedgeContracts = 0 ∧ 0 < b.hedgeContracts) ∨
      (0 < a.hedgeContracts ∧ b.hedgeContracts = 0))
      (okResult wParams3 (wData3.filter (inRange wParams3))).dailyResults) := by
  have heq := runBacktest_ok_of_ne wData3 wParams3 wData3_ne
  exact ⟨heq, hedgeContracts_transitions wData3 wParams3 _ heq⟩

/-- Witness for C10 at the cross-year January pair. -/
theorem rebalance_month_only_witness :
    runBacktest wDataYear wParamsYear =
      Except.ok (okResult wParamsYear (wDataYear.filter (inRange wParamsYear))) ∧
    (List.Chain' (fun a b => b.date.month = a.date.month →
      b.etfShares = a.etfShares ∧ b.hedgeCapital = a.hedgeCapital + b.hedgePnL)
      (okResult wParamsYear (wDataYear.filter (inRange wParamsYear))).dailyResults ∧
    (∀ e ∈ (okResult wParamsYear (wDataYear.filter (inRange wParamsYear))).tradeLogs,
      e.type = TradeType.rebalance →
      ∃ j a b,
        (okResult wParamsYear (wDataYear.filter (inRange wParamsYear))).dailyResults[j]? =
          some a ∧
        (okResult wParamsYear (wDataYear.filter (inRange wParamsYear))).dailyResults[j + 1]? =
          some b ∧
        a.date.month ≠ b.date.month ∧ e.date = b.date)) := by
  have heq := runBacktest_ok_of_ne wDataYear wParamsYear wDataYear_ne
  exact ⟨heq, rebalance_month_only wDataYear wParamsYear _ heq⟩

/-- Witness for C2 at the cross-year January pair (maPeriod 13, so the
whole two-day run is warm-up). -/
theorem warmup_suppression_witness :
    runBacktest wDataYear wParamsYear =
      Except.ok (okResult wParamsYear (wDataYear.filter (inRange wParamsYear))) ∧
    ((∀ j r,
      (okResult wParamsYear (wDataYear.filter (inRange wParamsYear))).dailyResults[j]? =
        some r → j + 1 < wParamsYear.maPeriod →
      r.signal = Signal.none ∧ r.hedgePnL = 0) ∧
    (∀ e ∈ (okResult wParamsYear (wDataYear.filter (inRange wParamsYear))).tradeLogs,
      (e.type = TradeType.hedge_open ∨ e.type = TradeType.hedge_close) →
      ∃ j r,
        (okResult wParamsYear (wDataYear.filter (inRange wParamsYear))).dailyResults[j]? =
          some r ∧
        wParamsYear.maPeriod ≤ j + 1 ∧ e.date = r.date)) := by
  have heq := runBacktest_ok_of_ne wDataYear wParamsYear wDataYear_ne
  exact ⟨heq, warmup_suppression wDataYear wParamsYear _ heq⟩

/-- Witness for C1 at a one-day series where the ETF allocation is not a
whole number of lots. -/
theorem initialization_spec_witness :
    ([⟨⟨2020, 1, 2⟩, 22000, 180⟩] : List HistoricalData).filter
      (inRange ⟨⟨2020, 1, 1⟩, ⟨2020, 12, 31⟩, 1000000, 4/5, 2, 100000, 2, false⟩) ≠ [] ∧
    ∃ res, runBacktest [⟨⟨2020, 1, 2⟩, 22000, 180⟩]
        ⟨⟨2020, 1, 1⟩, ⟨2020, 12, 31⟩, 1000000, 4/5, 2, 100000, 2, false⟩ =
        Except.ok res ∧
      res.tradeLogs.head? = some (initLog
        ⟨⟨2020, 1, 1⟩, ⟨2020, 12, 31⟩, 1000000, 4/5, 2, 100000, 2, false⟩
        ((([⟨⟨2020, 1, 2⟩, 22000, 180⟩] : List HistoricalData).filter
          (inRange ⟨⟨2020, 1, 1⟩, ⟨2020, 12, 31⟩, 1000000, 4/5, 2, 100000, 2, false⟩)).headD
            default)) ∧
      (res.tradeLogs.filter (fun e => decide (e.type = TradeType.buy))).length = 1 ∧
      ∃ r, res.dailyResults.head? = some r ∧
        r.etfShares = jsFloor ((1000000 : ℚ) * (4/5) /
          (((([⟨⟨2020, 1, 2⟩, 22000, 180⟩] : List HistoricalData).filter
            (inRange ⟨⟨2020, 1, 1⟩, ⟨2020, 12, 31⟩, 1000000, 4/5, 2, 100000, 2, false⟩)).headD
              default).etfPrice * 1000)) ∧
        r.hedgeCapital = (1000000 : ℚ) * (1 - 4/5) ∧
        r.totalEquity = ((jsFloor ((1000000 : ℚ) * (4/5) /
            (((([⟨⟨2020, 1, 2⟩, 22000, 180⟩] : List HistoricalData).filter
              (inRange ⟨⟨2020, 1, 1⟩, ⟨2020, 12, 31⟩, 1000000, 4/5, 2, 100000, 2, false⟩)).headD
                default).etfPrice * 1000)) : ℤ) : ℚ) * 1000 *
            ((([⟨⟨2020, 1, 2⟩, 22000, 180⟩] : List HistoricalData).filter
              (inRange ⟨⟨2020, 1, 1⟩, ⟨2020, 12, 31⟩, 1000000, 4/5, 2, 100000, 2, false⟩)).headD
                default).etfPrice +
          (1000000 : ℚ) * (1 - 4/5) :=
  ⟨by simp [inRange, Date.le],
    initialization_spec [⟨⟨2020, 1, 2⟩, 22000, 180⟩]
      ⟨⟨2020, 1, 1⟩, ⟨2020, 12, 31⟩, 1000000, 4/5, 2, 100000, 2, false⟩
      (by simp [inRange, Date.le])⟩

/-- A live state with an open 2-contract hedge entered at 21000. -/
def c6State : LoopState :=
  ⟨4, 200000, 2, 21000, 0, 1, 0, 0, 1000000, 0, [], []⟩

/-- Witness for C6: index 22500 at or above MA 21750 with the hedge of
`c6State` open. -/
theorem hedge_close_step_witness :
    (0 : ℚ) < 21750 ∧ ¬ (22500 : ℚ) < 21750 ∧ (0 : ℤ) < c6State.hedgeContracts ∧
    ((stepDay wParams3 2 ⟨⟨2024, 1, 4⟩, 22500, 182⟩ 21750 c6State).hedgeCapital =
      c6State.hedgeCapital +
        (c6State.hedgeContracts : ℚ) * (c6State.hedgeEntryPrice - 22500) * 50 ∧
    (stepDay wParams3 2 ⟨⟨2024, 1, 4⟩, 22500, 182⟩ 21750 c6State).totalHedgePnL =
      c6State.totalHedgePnL +
        (c6State.hedgeContracts : ℚ) * (c6State.hedgeEntryPrice - 22500) * 50 ∧
    (stepDay wParams3 2 ⟨⟨2024, 1, 4⟩, 22500, 182⟩ 21750 c6State).hedgeContracts = 0 ∧
    (stepDay wParams3 2 ⟨⟨2024, 1, 4⟩, 22500, 182⟩ 21750 c6State).tradeLogs =
      c6State.tradeLogs ++ [{
        date := ⟨2024, 1, 4⟩, type := TradeType.hedge_close,
        shares := Option.none, contracts := some c6State.hedgeContracts,
        price := 22500, amount := 0,
        pnl := some ((c6State.hedgeContracts : ℚ) * (c6State.hedgeEntryPrice - 22500) * 50),
        etfSharesAfter := c6State.etfShares,
        hedgeCapitalAfter := c6State.hedgeCapital +
          (c6State.hedgeContracts : ℚ) * (c6State.hedgeEntryPrice - 22500) * 50,
        totalEquityAfter :=
          (c6State.etfShares : ℚ) * 1000 * 182 + (c6State.hedgeCapital +
            (c6State.hedgeContracts : ℚ) * (c6State.hedgeEntryPrice - 22500) * 50) }] ∧
    ∃ r, (stepDay wParams3 2 ⟨⟨2024, 1, 4⟩, 22500, 182⟩ 21750 c6State).dailyResults =
        c6State.dailyResults ++ [r] ∧
      r.signal = Signal.long ∧
      r.hedgePnL = (c6State.hedgeContracts : ℚ) * (c6State.hedgeEntryPrice - 22500) * 50) :=
  ⟨by norm_num, by norm_num, by norm_num [c6State],
    hedge_close_step wParams3 2 ⟨⟨2024, 1, 4⟩, 22500, 182⟩ 21750 c6State
      (by norm_num) (by norm_num) (by norm_num [c6State])⟩

def c1CexData : List HistoricalData := [⟨⟨2020, 1, 2⟩, 22000, 180⟩]

def c1CexParams : BacktestParams :=
  ⟨⟨2020, 1, 1⟩, ⟨2020, 12, 31⟩, 1000000, 4/5, 2, 100000, 2, false⟩

/-- Counterexample to C1 as stated: with capital 1,000,000, ratio 0.8 and a
first ETF price of 180, only 4 whole lots (720,000) can be bought, so the
first emitted `DailyResult` has `totalEquity` 920,000 — not the
`initialCapital` of 1,000,000. -/
theorem first_day_equity_cex :
    (runBacktest c1CexData c1CexParams).map
      (fun res => res.dailyResults.map (·.totalEquity)) = Except.ok [920000] ∧
    ((920000 : ℚ) ≠ c1CexParams.initialCapital) := by
  constructor
  · norm_num [runBacktest, okResult, finalState, initState, initLog, c1CexData,
      c1CexParams, inRange, Date.le, calculateMA, runDays, stepDay, rebalancePhase,
      signalPhase, round2, jsRound_eq, round_eq, jsFloor_eq, List.range_succ,
      List.filter, Except.map]
  · norm_num [c1CexParams]

def c2CexData : List HistoricalData :=
  [⟨⟨2020, 1, 31⟩, 22000, 180⟩, ⟨⟨2020, 2, 3⟩, 21000, 100⟩]

def c2CexParams : BacktestParams :=
  ⟨⟨2020, 1, 1⟩, ⟨2020, 12, 31⟩, 1000000, 4/5, 13, 100000, 2, true⟩

/-- Counterexample to C2 as stated: with `maPeriod = 13` both days are
inside the MA warm-up and both signals are `none`, yet a `rebalance` trade
log entry is emitted and dated on the second emitted day (index 1 < 12) —
monthly rebalancing does not consult the MA, so it is not suppressed
during warm-up. -/
theorem warmup_rebalance_cex :
    (runBacktest c2CexData c2CexParams).map
      (fun res => (res.tradeLogs.map (fun e => (e.type, e.date)),
        res.dailyResults.map (·.signal), res.summary.rebalanceTrades)) =
      Except.ok ([(TradeType.buy, ⟨2020, 1, 31⟩), (TradeType.rebalance, ⟨2020, 2, 3⟩)],
        [Signal.none, Signal.none], 1) ∧
    c2CexParams.maPeriod = 13 := by
  constructor
  · norm_num [runBacktest, okResult, finalState, initState, initLog, c2CexData,
      c2CexParams, inRange, Date.le, calculateMA, runDays, stepDay, rebalancePhase,
      signalPhase, round2, jsRound_eq, round_eq, jsFloor_eq, List.range_succ,
      List.filter, Except.map]
  · rfl
